import Mathlib

/-!
Verification of the rate-acquisition and cache-scheduling core of the
special-fx currency service against its specification.

The development shallowly embeds the TypeScript source:

* `getEcbCacheTtl` and its calendar/timezone support (src/src/ecb.ts):
  instants are Unix epoch milliseconds as `Int`; the Europe/Berlin civil
  clock is modelled with the proleptic Gregorian calendar and the current
  EU daylight-saving rule (last Sunday of March 01:00 UTC to last Sunday
  of October 01:00 UTC), applied uniformly to every year.
* the three route handlers of src/src/index.ts (rebase-to-one, pairwise,
  historical pairwise): JS numbers are modelled as exact rationals.
* the zod feed schemas of src/src/ecb.ts over a JSON tree model, with the
  JS `Number(string)` conversion modelled for decimal notation
  (sign, digits, optional fraction); hexadecimal, exponent and Infinity
  forms are outside the model, as is IEEE rounding/overflow.
-/

/-- Day-of-week index of an epoch day number, 0 = Sunday .. 6 = Saturday,
matching the JS `Date.getDay` convention. Day 0 (1970-01-01) was a
Thursday, index 4. -/
def dayOfWeekOf (d : Int) : Int := (d + 4) % 7

/-- Civil date (year, month, day) of an epoch day number in the proleptic
Gregorian calendar: the standard civil-from-days algorithm used by the JS
Date stack. -/
def civilFromDays (z : Int) : Int × Int × Int :=
  let z1 := z + 719468
  let era := z1 / 146097
  let doe := z1 - era * 146097
  let yoe := (doe - doe / 1460 + doe / 36524 - doe / 146096) / 365
  let y := yoe + era * 400
  let doy := doe - (365 * yoe + yoe / 4 - yoe / 100)
  let mp := (5 * doy + 2) / 153
  let dd := doy - (153 * mp + 2) / 5 + 1
  let mm := if mp < 10 then mp + 3 else mp - 9
  (if mm ≤ 2 then y + 1 else y, mm, dd)

/-- Epoch day number of a civil (year, month, day): the standard
days-from-civil algorithm, inverse of `civilFromDays`. -/
def daysFromCivil (y m d : Int) : Int :=
  let y1 := if m ≤ 2 then y - 1 else y
  let era := y1 / 400
  let yoe := y1 - era * 400
  let mp := if m > 2 then m - 3 else m + 9
  let doy := (153 * mp + 2) / 5 + d - 1
  let doe := yoe * 365 + yoe / 4 - yoe / 100 + doy
  era * 146097 + doe - 719468

/-- Epoch day number of the last Sunday of a 31-day month `m` of year `y`
(used with March and October for the EU daylight-saving transitions). -/
def lastSundayOf (y m : Int) : Int :=
  daysFromCivil y m 31 - dayOfWeekOf (daysFromCivil y m 31)

/-- Instant (epoch ms) at which summer time starts in the EU rule: last
Sunday of March, 01:00 UTC. -/
def berlinDstStartMs (y : Int) : Int := lastSundayOf y 3 * 86400000 + 3600000

/-- Instant (epoch ms) at which summer time ends in the EU rule: last
Sunday of October, 01:00 UTC. -/
def berlinDstEndMs (y : Int) : Int := lastSundayOf y 10 * 86400000 + 3600000

/-- UTC calendar year of an instant (epoch ms). -/
def yearOfInstant (t : Int) : Int := (civilFromDays (t / 86400000)).1

/-- Whether Europe/Berlin observes summer time (CEST, UTC+2) at the given
instant; otherwise standard time (CET, UTC+1) applies. -/
def isBerlinDst (t : Int) : Prop :=
  berlinDstStartMs (yearOfInstant t) ≤ t ∧ t < berlinDstEndMs (yearOfInstant t)

instance (t : Int) : Decidable (isBerlinDst t) := by
  unfold isBerlinDst
  infer_instance

/-- UTC offset of Europe/Berlin at the given instant, in ms. -/
def berlinOffsetMs (t : Int) : Int := if isBerlinDst t then 7200000 else 3600000

/-- Local civil time in Europe/Berlin of an instant, as ms since the local
epoch. -/
def berlinLocalMs (t : Int) : Int := t + berlinOffsetMs t

/-- Local calendar day in Europe/Berlin of an instant, as an epoch day
number of the local civil date. -/
def berlinLocalDay (t : Int) : Int := berlinLocalMs t / 86400000

/-- A day number falling on a weekend, per date-fns `isWeekend`:
day-of-week 0 (Sunday) or 6 (Saturday). -/
def isWeekendDay (d : Int) : Prop := dayOfWeekOf d = 0 ∨ dayOfWeekOf d = 6

instance (d : Int) : Decidable (isWeekendDay d) := by
  unfold isWeekendDay
  infer_instance

/-- Fuelled weekend-skipping loop matching the remaining-days loop of
date-fns `addBusinessDays`: advance one day at a time while landing on a
weekend. Seven units of fuel are ample since at most two weekend days are
consecutive. -/
def skipWeekendDays : Nat → Int → Int
  | 0, d => d
  | Nat.succ n, d => if isWeekendDay d then skipWeekendDays n (d + 1) else d

/-- date-fns `addBusinessDays(date, 1)` on the local calendar day: the
first non-weekend day strictly after `d`. -/
def addBusinessDays1 (d : Int) : Int := skipWeekendDays 7 (d + 1)

/-- Local wall-clock time set by `cutoffAfterLastModified.setHours(15, 50, 0, 0)`
in ms from local midnight: the nominal 16:00 CET ECB publication time
minus the 10-minute safety margin. -/
def cutoffLocalMs : Int := 57000000

/-- Instant (epoch ms) of the given Berlin local wall-clock time of the
given local day. The UTC offset is resolved from the standard-time guess;
for wall-clock times away from the 02:00-03:00 transition window, such as
15:50, both candidate offsets agree, so the resolution is exact there. -/
def berlinInstantOfLocal (day timeOfDay : Int) : Int :=
  day * 86400000 + timeOfDay - berlinOffsetMs (day * 86400000 + timeOfDay - 3600000)

/-- `getEcbCacheTtl(now, lastModified)` from src/src/ecb.ts: both instants
in epoch ms, result in whole seconds. The cutoff is 15:50 Europe/Berlin on
the first business day after the Berlin-local date of `lastModified`; if
`now` is before the cutoff the remaining whole seconds are returned
(date-fns `differenceInSeconds`, truncating), otherwise 60. -/
def getEcbCacheTtl (now lastModified : Int) : Int :=
  if now < berlinInstantOfLocal (addBusinessDays1 (berlinLocalDay lastModified)) cutoffLocalMs then
    (berlinInstantOfLocal (addBusinessDays1 (berlinLocalDay lastModified)) cutoffLocalMs - now) /
      1000
  else 60

/-- TTL computed by `ecbRatesCached` and `ecbHistoricalRatesCached` in
src/src/ecb.ts: a missing Last-Modified header is replaced by `new Date()`
(the current instant) before calling `getEcbCacheTtl`. -/
def ecbTtlWithFallback (now : Int) (lastModified : Option Int) : Int :=
  getEcbCacheTtl now (lastModified.getD now)

/-- TTL attached by the route handlers of src/src/index.ts: when the
parsed dataset carries no lastModified instant the constant 3600 is used,
otherwise `getEcbCacheTtl`. -/
def routeCacheTtl (now : Int) (lastModified : Option Int) : Int :=
  match lastModified with
  | some lm => getEcbCacheTtl now lm
  | none => 3600

theorem berlinOffsetMs_cases (t : Int) :
    berlinOffsetMs t = 3600000 ∨ berlinOffsetMs t = 7200000 := by
  by_cases h : isBerlinDst t <;> simp [berlinOffsetMs, h]

theorem addBusinessDays1_of_friday (d : Int) (h : dayOfWeekOf d = 5) :
    addBusinessDays1 d = d + 3 := by
  unfold dayOfWeekOf at h
  have h1 : isWeekendDay (d + 1) := by unfold isWeekendDay dayOfWeekOf; omega
  have h2 : isWeekendDay (d + 1 + 1) := by unfold isWeekendDay dayOfWeekOf; omega
  have h3 : ¬ isWeekendDay (d + 1 + 1 + 1) := by unfold isWeekendDay dayOfWeekOf; omega
  unfold addBusinessDays1
  simp only [skipWeekendDays, if_pos h1, if_pos h2, if_neg h3]
  omega

theorem addBusinessDays1_of_saturday (d : Int) (h : dayOfWeekOf d = 6) :
    addBusinessDays1 d = d + 2 := by
  unfold dayOfWeekOf at h
  have h1 : isWeekendDay (d + 1) := by unfold isWeekendDay dayOfWeekOf; omega
  have h2 : ¬ isWeekendDay (d + 1 + 1) := by unfold isWeekendDay dayOfWeekOf; omega
  unfold addBusinessDays1
  simp only [skipWeekendDays, if_pos h1, if_neg h2]
  omega

theorem addBusinessDays1_of_weekday (d : Int) (h5 : dayOfWeekOf d ≠ 5)
    (h6 : dayOfWeekOf d ≠ 6) : addBusinessDays1 d = d + 1 := by
  unfold dayOfWeekOf at h5 h6
  have h1 : ¬ isWeekendDay (d + 1) := by unfold isWeekendDay dayOfWeekOf; omega
  unfold addBusinessDays1
  simp only [skipWeekendDays, if_neg h1]

/-- The loop of `addBusinessDays1` lands on the least business day
strictly after its argument. -/
theorem addBusinessDays1_spec (d : Int) :
    d < addBusinessDays1 d ∧ ¬ isWeekendDay (addBusinessDays1 d) ∧
      ∀ e : Int, d < e → e < addBusinessDays1 d → isWeekendDay e := by
  by_cases h5 : dayOfWeekOf d = 5
  · rw [addBusinessDays1_of_friday d h5]
    unfold dayOfWeekOf at h5
    refine ⟨by omega, ?_, ?_⟩
    · unfold isWeekendDay dayOfWeekOf
      omega
    · intro e he1 he2
      unfold isWeekendDay dayOfWeekOf
      omega
  · by_cases h6 : dayOfWeekOf d = 6
    · rw [addBusinessDays1_of_saturday d h6]
      unfold dayOfWeekOf at h6
      refine ⟨by omega, ?_, ?_⟩
      · unfold isWeekendDay dayOfWeekOf
        omega
      · intro e he1 he2
        unfold isWeekendDay dayOfWeekOf
        omega
    · rw [addBusinessDays1_of_weekday d h5 h6]
      unfold dayOfWeekOf at h5 h6
      refine ⟨by omega, ?_, ?_⟩
      · unfold isWeekendDay dayOfWeekOf
        omega
      · intro e he1 he2
        omega

/-- An instant whose Berlin-local day precedes `C` lies more than
53400 seconds before the 15:50 Berlin cutoff of day `C`. -/
theorem lt_cutoff_of_localDay_lt (now C : Int) (h : berlinLocalDay now < C) :
    now + 53400000 < berlinInstantOfLocal C cutoffLocalMs := by
  have h1 := berlinOffsetMs_cases now
  have h2 := berlinOffsetMs_cases (C * 86400000 + cutoffLocalMs - 3600000)
  unfold cutoffLocalMs at h2
  unfold berlinLocalDay berlinLocalMs at h
  unfold berlinInstantOfLocal cutoffLocalMs
  omega

/-- C2: for every pair of instants, `getEcbCacheTtl` takes as cutoff the
first business day strictly after the Berlin-local date of lastModified,
at the 15:50 local publish-minus-margin time; strictly before the cutoff
it returns the whole number of seconds until the cutoff, at or after it
the short fixed 60 seconds. -/
theorem ttl_first_business_day_cutoff (now lm : Int) :
    ∃ c : Int,
      berlinLocalDay lm < c ∧ ¬ isWeekendDay c ∧
        (∀ e : Int, berlinLocalDay lm < e → e < c → isWeekendDay e) ∧
        (now < berlinInstantOfLocal c cutoffLocalMs →
          getEcbCacheTtl now lm = (berlinInstantOfLocal c cutoffLocalMs - now) / 1000) ∧
        (berlinInstantOfLocal c cutoffLocalMs ≤ now → getEcbCacheTtl now lm = 60) := by
  obtain ⟨hgt, hbus, hmin⟩ := addBusinessDays1_spec (berlinLocalDay lm)
  refine ⟨addBusinessDays1 (berlinLocalDay lm), hgt, hbus, hmin, ?_, ?_⟩
  · intro h
    unfold getEcbCacheTtl
    rw [if_pos h]
  · intro h
    unfold getEcbCacheTtl
    rw [if_neg (by omega)]

/-- C1: when lastModified falls on a Berlin-local Friday and now is any
instant of the following Saturday or Sunday, the TTL is the whole number
of seconds from now until 15:50 Berlin time of the following Monday, never
a Saturday cutoff and never the 60-second fallback. -/
theorem ttl_friday_weekend_monday_cutoff (now lm : Int)
    (hfri : dayOfWeekOf (berlinLocalDay lm) = 5)
    (hwk : berlinLocalDay now = berlinLocalDay lm + 1 ∨
      berlinLocalDay now = berlinLocalDay lm + 2) :
    getEcbCacheTtl now lm =
        (berlinInstantOfLocal (berlinLocalDay lm + 3) cutoffLocalMs - now) / 1000 ∧
      dayOfWeekOf (berlinLocalDay lm + 3) = 1 ∧ 60 < getEcbCacheTtl now lm := by
  have hadd := addBusinessDays1_of_friday _ hfri
  have hlt : now + 53400000 < berlinInstantOfLocal (berlinLocalDay lm + 3) cutoffLocalMs := by
    apply lt_cutoff_of_localDay_lt
    omega
  refine ⟨?_, ?_, ?_⟩
  · unfold getEcbCacheTtl
    rw [hadd, if_pos (by omega)]
  · unfold dayOfWeekOf at *
    omega
  · unfold getEcbCacheTtl
    rw [hadd, if_pos (by omega)]
    omega

/-- Witness for C1 at the instants of the repository weekend test:
lastModified 2024-06-07T12:00:00Z (Friday 14:00 CEST) and now
2024-06-09T10:00:00Z (Sunday 12:00 CEST). -/
theorem ttl_friday_weekend_monday_cutoff_witness :
    (dayOfWeekOf (berlinLocalDay 1717761600000) = 5 ∧
        berlinLocalDay 1717927200000 = berlinLocalDay 1717761600000 + 2) ∧
      (getEcbCacheTtl 1717927200000 1717761600000 =
          (berlinInstantOfLocal (berlinLocalDay 1717761600000 + 3) cutoffLocalMs -
              1717927200000) / 1000 ∧
        dayOfWeekOf (berlinLocalDay 1717761600000 + 3) = 1 ∧
        60 < getEcbCacheTtl 1717927200000 1717761600000) :=
  ⟨⟨by decide, by decide⟩,
    ttl_friday_weekend_monday_cutoff 1717927200000 1717761600000 (by decide)
      (Or.inr (by decide))⟩

/-- C9 counterexample: at now = 2024-06-05T08:00:00Z with no publication
instant from the transport, the fetch-layer fallback computes
`getEcbCacheTtl(now, now)` = 107400 seconds (the full window to the next
business-day cutoff), not the short fallback duration of about a minute. -/
theorem fallback_ttl_not_short :
    ecbTtlWithFallback 1717574400000 none = 107400 ∧ (107400 : Int) ≠ 60 :=
  ⟨by decide, by decide⟩

/-- C9 amended: a missing publication instant is indeed replaced by now in
the fetching layer, but the resulting lifetime is the whole window until
the first business-day 15:50 Berlin cutoff after now, always exceeding 60
seconds; the route layer instead attaches a fixed 3600-second lifetime
when the instant is absent. -/
theorem fallback_ttl_amended (now : Int) :
    ecbTtlWithFallback now none = getEcbCacheTtl now now ∧
      ecbTtlWithFallback now none =
        (berlinInstantOfLocal (addBusinessDays1 (berlinLocalDay now)) cutoffLocalMs - now) /
          1000 ∧
      60 < ecbTtlWithFallback now none ∧ routeCacheTtl now none = 3600 := by
  have hgt := (addBusinessDays1_spec (berlinLocalDay now)).1
  have hlt := lt_cutoff_of_localDay_lt now (addBusinessDays1 (berlinLocalDay now)) hgt
  refine ⟨rfl, ?_, ?_, rfl⟩
  · show getEcbCacheTtl now now = _
    unfold getEcbCacheTtl
    rw [if_pos (by omega)]
  · show 60 < getEcbCacheTtl now now
    unfold getEcbCacheTtl
    rw [if_pos (by omega)]
    omega

/-- The 30 currently published ECB currency codes: the options of
`ecbCurrencyCodeSchema` in src/src/ecb.ts. -/
def ecbCurrencyCodes : List String :=
  ["AUD", "BGN", "BRL", "CAD", "CHF", "CNY", "CZK", "DKK", "GBP", "HKD",
    "HUF", "IDR", "ILS", "INR", "ISK", "JPY", "KRW", "MXN", "MYR", "NOK",
    "NZD", "PHP", "PLN", "RON", "SEK", "SGD", "THB", "TRY", "USD", "ZAR"]

/-- The 40 historical ECB currency codes: the options of
`ecbHistoricalCurrencyCodeSchema` in src/src/ecb.ts, a superset of the
current codes that also contains codes no longer in circulation. -/
def ecbHistoricalCurrencyCodes : List String :=
  ["AUD", "BGN", "BRL", "CAD", "CHF", "CNY", "CYP", "CZK", "DKK", "EEK",
    "GBP", "HKD", "HRK", "HUF", "IDR", "ILS", "INR", "ISK", "JPY", "KRW",
    "LTL", "LVL", "MTL", "MXN", "MYR", "NOK", "NZD", "PHP", "PLN", "ROL",
    "RON", "RUB", "SEK", "SGD", "SIT", "SKK", "THB", "TRL", "TRY", "USD",
    "ZAR"]

/-- The request-level currency enumeration of src/src/index.ts:
`currencyCodeSchema` = the ECB codes extended with the anchor EUR. -/
def currencyCodeOptions : List String := ecbCurrencyCodes ++ ["EUR"]

/-- The request-level historical enumeration of src/src/index.ts. -/
def historicalCurrencyCodeOptions : List String := ecbHistoricalCurrencyCodes ++ ["EUR"]

/-- Parsed daily dataset `EcbRateData` of src/src/ecb.ts: publication
date, optional Last-Modified instant (epoch ms), and the EUR-anchored
rate per currency code, modelled as exact rationals. -/
structure EcbRateData where
  date : String
  lastModified : Option Int
  rates : String → ℚ

/-- The handler-side rates object `{...data.rates, EUR: 1}`: the anchor
currency EUR is synthesized with rate 1, every other code reads from the
parsed table. -/
def withEur (r : String → ℚ) : String → ℚ := fun c => if c = "EUR" then 1 else r c

/-- The rates record computed by the `/:fromCurrency/latest` handler of
src/src/index.ts: starting from `{...data.rates, EUR: 1}`, one loop
divides the entry of every code in `currencyCodeSchema.options` by the
captured base rate and a second loop multiplies it by the amount. -/
def latestHandlerRates (data : EcbRateData) (fromCurrency : String) (amount : ℚ) :
    List (String × ℚ) :=
  currencyCodeOptions.map fun c =>
    (c, withEur data.rates c / withEur data.rates fromCurrency * amount)

/-- Response record of the `/:fromCurrency/:toCurrency/latest` handler. -/
structure PairwiseResponse where
  fromCurrency : String
  toCurrency : String
  date : String
  rate : ℚ

/-- The `/:fromCurrency/:toCurrency/latest` handler of src/src/index.ts:
`rate = (rates[toCurrency] / rates[fromCurrency]) * amount` over the
EUR-extended table; the handler has no failure branch. -/
def pairwiseLatestHandler (data : EcbRateData) (fromCurrency toCurrency : String)
    (amount : ℚ) : PairwiseResponse :=
  { fromCurrency := fromCurrency, toCurrency := toCurrency, date := data.date,
    rate := withEur data.rates toCurrency / withEur data.rates fromCurrency * amount }

/-- One parsed day of the historical dataset: currency coverage is
partial, so the table is `Option`-valued, `none` meaning the code is
absent for that date. A NaN rate behaves like absence for the truthiness
test below and is likewise represented by `none`. -/
structure EcbHistoricalDay where
  date : String
  rates : String → Option ℚ

/-- The per-day rates object `{...dayData.rates, EUR: 1}` of the
historical handler. -/
def withEurOpt (r : String → Option ℚ) : String → Option ℚ :=
  fun c => if c = "EUR" then some 1 else r c

/-- JS truthiness of `rates[code]` as used in the historical handler
condition: an absent value and the number 0 are falsy. -/
def truthyRate : Option ℚ → Bool
  | none => false
  | some q => decide (q ≠ 0)

/-- One output entry of the `/:fromCurrency/:toCurrency/historical`
handler: `rates[to] && rates[from] ? (rates[to] / rates[from]) * amount : null`. -/
def historicalEntry (day : EcbHistoricalDay) (fromCurrency toCurrency : String)
    (amount : ℚ) : String × Option ℚ :=
  (day.date,
    if truthyRate (withEurOpt day.rates toCurrency) &&
        truthyRate (withEurOpt day.rates fromCurrency) then
      some ((withEurOpt day.rates toCurrency).getD 0 /
        (withEurOpt day.rates fromCurrency).getD 0 * amount)
    else none)

/-- The list `historicalRates` built by the historical handler: one entry
per day of the parsed series, in order. -/
def historicalHandlerRates (days : List EcbHistoricalDay) (fromCurrency toCurrency : String)
    (amount : ℚ) : List (String × Option ℚ) :=
  days.map fun day => historicalEntry day fromCurrency toCurrency amount

/-- Modelled from the spec: the single-pair conversion with the
ZeroOrMissingRateError behavior the specification describes, in which a
required rate equal to zero (the anchor substitution not applying) makes
the request fail instead of producing a value. The repository code has no
such branch; this definition exists to compare the claimed behavior with
`pairwiseLatestHandler`. -/
def specPairwiseChecked (r : String → ℚ) (fromCurrency toCurrency : String)
    (amount : ℚ) : Option ℚ :=
  if withEur r fromCurrency = 0 ∨ withEur r toCurrency = 0 then none
  else some (withEur r toCurrency / withEur r fromCurrency * amount)

/-- The EUR-anchored rate table of the repository test fixture
(src/src/index.spec.ts). -/
def testRates : String → ℚ := fun c =>
  if c = "AUD" then 16235 / 10000
  else if c = "BGN" then 19558 / 10000
  else if c = "BRL" then 54578 / 10000
  else if c = "CAD" then 14789 / 10000
  else if c = "CHF" then 9785 / 10000
  else if c = "CNY" then 78542 / 10000
  else if c = "CZK" then 245478 / 10000
  else if c = "DKK" then 74578 / 10000
  else if c = "GBP" then 8465 / 10000
  else if c = "HKD" then 84578 / 10000
  else if c = "HUF" then 38547 / 100
  else if c = "IDR" then 1745678 / 100
  else if c = "ILS" then 40547 / 10000
  else if c = "INR" then 905478 / 10000
  else if c = "ISK" then 14857 / 100
  else if c = "JPY" then 17005 / 100
  else if c = "KRW" then 138547 / 100
  else if c = "MXN" then 182547 / 10000
  else if c = "MYR" then 51478 / 10000
  else if c = "NOK" then 117845 / 10000
  else if c = "NZD" then 17845 / 10000
  else if c = "PHP" then 625478 / 10000
  else if c = "PLN" then 42547 / 10000
  else if c = "RON" then 49758 / 10000
  else if c = "SEK" then 114523 / 10000
  else if c = "SGD" then 14625 / 10000
  else if c = "THB" then 395478 / 10000
  else if c = "TRY" then 324578 / 10000
  else if c = "USD" then 10847 / 10000
  else if c = "ZAR" then 196578 / 10000
  else 1

/-- The mocked daily dataset of src/src/index.spec.ts. -/
def ecbTestData : EcbRateData :=
  { date := "2024-06-04", lastModified := some 1717516800000, rates := testRates }

/-- A corrupted table whose USD rate is exactly zero, for exercising the
zero-divisor paths. -/
def zeroRateData : EcbRateData :=
  { date := "2024-06-04", lastModified := none,
    rates := fun c => if c = "USD" then 0 else testRates c }

/-- C3: rebasing to a valid source currency S puts exactly the amount in
the entry for S (rate[S]/rate[S]*amount), with the anchor EUR read as the
synthesized 1 whenever it is consulted; the hypothesis that the rate of S
is nonzero is the RateTable invariant (all rates positive). -/
theorem rebase_identity (data : EcbRateData) (S : String) (amount : ℚ)
    (hmem : S ∈ currencyCodeOptions) (hS : withEur data.rates S ≠ 0) :
    (S, amount) ∈ latestHandlerRates data S amount ∧ withEur data.rates "EUR" = 1 := by
  constructor
  · unfold latestHandlerRates
    refine List.mem_map.mpr ⟨S, hmem, ?_⟩
    rw [div_self hS, one_mul]
  · rfl

/-- Witness for C3 on the repository test fixture, S = USD, amount = 100. -/
theorem rebase_identity_witness :
    ("USD" ∈ currencyCodeOptions ∧ withEur ecbTestData.rates "USD" ≠ 0) ∧
      (("USD", (100 : ℚ)) ∈ latestHandlerRates ecbTestData "USD" 100 ∧
        withEur ecbTestData.rates "EUR" = 1) :=
  ⟨⟨by decide, by
      rw [show withEur ecbTestData.rates "USD" = 10847 / 10000 from rfl]
      norm_num⟩,
    rebase_identity ecbTestData "USD" 100 (by decide) (by
      rw [show withEur ecbTestData.rates "USD" = 10847 / 10000 from rfl]
      norm_num)⟩

/-- C4: the pairwise handler returns exactly
(rate[T] / rate[S]) * amount over the EUR-extended table, the division
happening before the scaling by the amount, so the result is the unit
rate scaled linearly by the amount; EUR is synthesized as 1. -/
theorem pairwise_rate_formula (data : EcbRateData) (S T : String) (amount : ℚ) :
    (pairwiseLatestHandler data S T amount).rate =
        withEur data.rates T / withEur data.rates S * amount ∧
      (pairwiseLatestHandler data S T amount).rate =
        (pairwiseLatestHandler data S T 1).rate * amount ∧
      withEur data.rates "EUR" = 1 := by
  refine ⟨rfl, ?_, rfl⟩
  show withEur data.rates T / withEur data.rates S * amount =
    withEur data.rates T / withEur data.rates S * 1 * amount
  ring

/-- C5: over one rate table with nonzero rates for S and T, the S to T and
T to S conversions of the same amount multiply to amount squared; in this
exact-rational model of JS arithmetic the reciprocity is exact, which is
within any floating tolerance. -/
theorem pairwise_reciprocal (data : EcbRateData) (S T : String) (amount : ℚ)
    (hS : withEur data.rates S ≠ 0) (hT : withEur data.rates T ≠ 0) :
    (pairwiseLatestHandler data S T amount).rate *
        (pairwiseLatestHandler data T S amount).rate = amount * amount := by
  show withEur data.rates T / withEur data.rates S * amount *
    (withEur data.rates S / withEur data.rates T * amount) = amount * amount
  field_simp
  ring

/-- Witness for C5 on the repository test fixture, S = USD, T = GBP,
amount = 100. -/
theorem pairwise_reciprocal_witness :
    (withEur ecbTestData.rates "USD" ≠ 0 ∧ withEur ecbTestData.rates "GBP" ≠ 0) ∧
      (pairwiseLatestHandler ecbTestData "USD" "GBP" 100).rate *
          (pairwiseLatestHandler ecbTestData "GBP" "USD" 100).rate = 100 * 100 :=
  ⟨⟨by
      rw [show withEur ecbTestData.rates "USD" = 10847 / 10000 from rfl]
      norm_num, by
      rw [show withEur ecbTestData.rates "GBP" = 8465 / 10000 from rfl]
      norm_num⟩,
    pairwise_reciprocal ecbTestData "USD" "GBP" 100
      (by
        rw [show withEur ecbTestData.rates "USD" = 10847 / 10000 from rfl]
        norm_num)
      (by
        rw [show withEur ecbTestData.rates "GBP" = 8465 / 10000 from rfl]
        norm_num)⟩

/-- C6: the historical handler emits exactly one entry per day of the
input series, in order and carrying that day's date, and a day on which
the rate of S or of T is absent (the anchor never is, being synthesized)
gets the explicit entry (date, none) rather than being omitted. -/
theorem historical_entries_total (days : List EcbHistoricalDay) (S T : String)
    (amount : ℚ) :
    (historicalHandlerRates days S T amount).length = days.length ∧
      (historicalHandlerRates days S T amount).map Prod.fst =
        days.map EcbHistoricalDay.date ∧
      ∀ day ∈ days,
        ((S ≠ "EUR" ∧ day.rates S = none) ∨ (T ≠ "EUR" ∧ day.rates T = none)) →
          historicalEntry day S T amount = (day.date, none) := by
  refine ⟨by simp [historicalHandlerRates], ?_, ?_⟩
  · simp [historicalHandlerRates, historicalEntry]
  · intro day _ habs
    unfold historicalEntry withEurOpt truthyRate
    rcases habs with ⟨hne, hnone⟩ | ⟨hne, hnone⟩ <;> simp [if_neg hne, hnone]

/-- C7 counterexample: on a table whose USD rate is exactly zero the
single-pair handler still produces an ordinary numeric response whose
rate is computed as rate(GBP) divided by the zero rate (there is no
failure branch in the handler and no ZeroOrMissingRateError in the code),
whereas the behavior the claim describes would reject the request. -/
theorem pairwise_zero_rate_no_failure :
    (pairwiseLatestHandler zeroRateData "USD" "GBP" 1).rate =
        withEur zeroRateData.rates "GBP" / 0 * 1 ∧
      specPairwiseChecked zeroRateData.rates "USD" "GBP" 1 = none := by
  constructor
  · rfl
  · have h : withEur zeroRateData.rates "USD" = 0 := rfl
    simp [specPairwiseChecked, h]

/-- C7 amended: in the historical path a zero rate is treated exactly
like an absent one, degrading that date to an explicit null entry; the
single-pair path performs no zero-or-missing check at all and always
computes (rate[T] / rate[S]) * amount, whatever the rates are. -/
theorem zero_rate_handling_amended :
    (∀ (day : EcbHistoricalDay) (S T : String) (amount : ℚ),
        (withEurOpt day.rates S = some 0 ∨ withEurOpt day.rates S = none ∨
            withEurOpt day.rates T = some 0 ∨ withEurOpt day.rates T = none) →
          (historicalEntry day S T amount).2 = none) ∧
      ∀ (data : EcbRateData) (S T : String) (amount : ℚ),
        (pairwiseLatestHandler data S T amount).rate =
          withEur data.rates T / withEur data.rates S * amount := by
  constructor
  · intro day S T amount h
    unfold historicalEntry truthyRate
    rcases h with h | h | h | h <;> simp [h]
  · intro data S T amount
    rfl

/-- Whitespace characters trimmed by the JS `Number(string)` conversion
(restricted to the common ASCII ones). -/
def isJsSpace (c : Char) : Bool := c == ' ' || c == '\t' || c == '\n' || c == '\r'

/-- Value of a digit character. -/
def digitVal (c : Char) : Nat := c.toNat - 48

/-- Decimal digits folded into a natural number. -/
def digitsToNat (l : List Char) : Nat := l.foldl (fun n c => n * 10 + digitVal c) 0

/-- Unsigned decimal literal: digits with an optional fractional part,
at least one digit overall, nothing trailing. The result (m, k) denotes
the rational m / 10 ^ k. -/
def parseDecCore (cs : List Char) : Option (Int × Nat) :=
  let ip := cs.takeWhile Char.isDigit
  let rest := cs.dropWhile Char.isDigit
  match rest with
  | [] => if ip.isEmpty then none else some ((digitsToNat ip : Int), 0)
  | '.' :: fs =>
    let fp := fs.takeWhile Char.isDigit
    let rest2 := fs.dropWhile Char.isDigit
    if rest2.isEmpty && !(ip.isEmpty && fp.isEmpty) then
      some ((digitsToNat (ip ++ fp) : Int), fp.length)
    else none
  | _ => none

/-- Optionally signed decimal literal. -/
def parseSignedDec : List Char → Option (Int × Nat)
  | '+' :: cs => parseDecCore cs
  | '-' :: cs => (parseDecCore cs).map (fun p => (-p.1, p.2))
  | cs => parseDecCore cs

/-- The JS `Number(string)` conversion on decimal notation, `none`
standing for NaN: surrounding whitespace is trimmed, the empty string
converts to 0, and otherwise an optionally signed decimal literal is
required. Hexadecimal, exponent and Infinity forms are outside this
model. -/
def jsNumberRaw (s : String) : Option (Int × Nat) :=
  let t := ((s.toList.dropWhile isJsSpace).reverse.dropWhile isJsSpace).reverse
  if t.isEmpty then some (0, 0) else parseSignedDec t

/-- Exact rational denoted by a converted decimal (m, k): m / 10 ^ k. -/
def decValue (p : Int × Nat) : ℚ := (p.1 : ℚ) / 10 ^ p.2

/-- The JS number produced by `Number(string)` as an exact rational,
`none` standing for NaN. -/
def jsToNumber (s : String) : Option ℚ := (jsNumberRaw s).map decValue

/-- The amount query validator shared by the three conversion routes of
src/src/index.ts, `z.string().transform(Number).pipe(z.number()).default(1)`:
an absent parameter yields the default 1; a present string is converted
by `Number`, and the converted value passes `z.number()` unless the
conversion gave NaN. -/
def validateAmount (q : Option String) : Option ℚ :=
  match q with
  | none => some 1
  | some s =>
    match jsNumberRaw s with
    | none => none
    | some p => some (decValue p)

/-- JSON-like tree produced by fast-xml-parser with ignoreAttributes
false: attribute values stay strings, nested elements become objects or
arrays. -/
inductive Json where
  | str : String → Json
  | num : Int → Json
  | arr : List Json → Json
  | obj : List (String × Json) → Json

/-- Field lookup in an object, first match. -/
def jLookup : List (String × Json) → String → Option Json
  | [], _ => none
  | (k, v) :: rest, key => if k = key then some v else jLookup rest key

def asObj : Json → Option (List (String × Json))
  | .obj fs => some fs
  | _ => none

def asStr : Json → Option String
  | .str s => some s
  | _ => none

def asArr : Json → Option (List Json)
  | .arr l => some l
  | _ => none

/-- `z.enum(codes)`: the value must be a string belonging to the
enumeration. -/
def parseEnumStr (codes : List String) (j : Json) : Option String :=
  match asStr j with
  | none => none
  | some s => if s ∈ codes then some s else none

/-- The `z.iso.date()` check of the daily schema: a YYYY-MM-DD string
with a month between 01 and 12 and a day within the range of that month
(29 allowed for February). -/
def isIsoDate (s : String) : Bool :=
  match s.toList with
  | [y1, y2, y3, y4, h1, m1, m2, h2, d1, d2] =>
    y1.isDigit && y2.isDigit && y3.isDigit && y4.isDigit &&
      (h1 == '-') && (h2 == '-') &&
      m1.isDigit && m2.isDigit && d1.isDigit && d2.isDigit &&
      (let m := digitVal m1 * 10 + digitVal m2
       let d := digitVal d1 * 10 + digitVal d2
       let maxd : Nat := if m = 2 then 29 else if m = 4 ∨ m = 6 ∨ m = 9 ∨ m = 11 then 30 else 31
       decide (1 ≤ m ∧ m ≤ 12 ∧ 1 ≤ d ∧ d ≤ maxd))
  | _ => false

/-- One rate element of the feeds, the innermost Cube of the schemas:
an object whose `@_currency` attribute must belong to the enumeration and
whose `@_rate` attribute must be a string, numerically converted by the
transform with no further validation (`none` in the result is NaN). -/
def parseCubeEntry (codes : List String) (j : Json) : Option (String × Option ℚ) :=
  match asObj j with
  | none => none
  | some fs =>
    match (jLookup fs "@_currency").bind (parseEnumStr codes) with
    | none => none
    | some c =>
      match (jLookup fs "@_rate").bind asStr with
      | none => none
      | some rstr => some (c, jsToNumber rstr)

/-- `z.array(schema)`: every element must parse. -/
def parseAll {β : Type} (f : Json → Option β) : List Json → Option (List β)
  | [] => some []
  | j :: rest =>
    match f j with
    | none => none
    | some x =>
      match parseAll f rest with
      | none => none
      | some xs => some (x :: xs)

/-- Output of the daily schema `ecbDailyDataSchema`. -/
structure EcbDailyParsed where
  time : String
  entries : List (String × Option ℚ)
deriving DecidableEq

/-- `ecbDailyDataSchema.parse` of src/src/ecb.ts: the
gesmes:Envelope / Cube / Cube object with an ISO `@_time` and an inner
Cube array of rate elements over the current-code enumeration. -/
def parseEcbDaily (j : Json) : Option EcbDailyParsed :=
  match asObj j with
  | none => none
  | some fs =>
    match (jLookup fs "gesmes:Envelope").bind asObj with
    | none => none
    | some env =>
      match (jLookup env "Cube").bind asObj with
      | none => none
      | some c1 =>
        match (jLookup c1 "Cube").bind asObj with
        | none => none
        | some c2 =>
          match (jLookup c2 "@_time").bind asStr with
          | none => none
          | some t =>
            if isIsoDate t then
              match (jLookup c2 "Cube").bind asArr with
              | none => none
              | some arr =>
                match parseAll (parseCubeEntry ecbCurrencyCodes) arr with
                | none => none
                | some entries => some ⟨t, entries⟩
            else none

/-- One day object of the historical schema: a plain-string `@_time`
(no ISO check in this schema) and a Cube array over the historical-code
enumeration. -/
def parseHistoricalDay (j : Json) : Option (String × List (String × Option ℚ)) :=
  match asObj j with
  | none => none
  | some fs =>
    match (jLookup fs "@_time").bind asStr with
    | none => none
    | some t =>
      match (jLookup fs "Cube").bind asArr with
      | none => none
      | some arr =>
        match parseAll (parseCubeEntry ecbHistoricalCurrencyCodes) arr with
        | none => none
        | some entries => some (t, entries)

/-- `ecbHistoricalDataSchema.parse` of src/src/ecb.ts. -/
def parseEcbHistorical (j : Json) : Option (List (String × List (String × Option ℚ))) :=
  match asObj j with
  | none => none
  | some fs =>
    match (jLookup fs "gesmes:Envelope").bind asObj with
    | none => none
    | some env =>
      match (jLookup env "Cube").bind asObj with
      | none => none
      | some c1 =>
        match (jLookup c1 "Cube").bind asArr with
        | none => none
        | some arr => parseAll parseHistoricalDay arr

/-- Rate element payload with the given currency and rate attributes. -/
def mkCubeEntryJson (e : String × String) : Json :=
  .obj [("@_currency", .str e.1), ("@_rate", .str e.2)]

/-- Well-shaped daily payload carrying the given date and rate entries. -/
def mkDailyJson (time : String) (entries : List (String × String)) : Json :=
  .obj [("gesmes:Envelope",
    .obj [("Cube",
      .obj [("Cube",
        .obj [("@_time", .str time),
          ("Cube", .arr (entries.map mkCubeEntryJson))])])])]

/-- One well-shaped day of a historical payload. -/
def mkHistDayJson (d : String × List (String × String)) : Json :=
  .obj [("@_time", .str d.1), ("Cube", .arr (d.2.map mkCubeEntryJson))]

/-- Well-shaped historical payload carrying the given days. -/
def mkHistoricalJson (days : List (String × List (String × String))) : Json :=
  .obj [("gesmes:Envelope",
    .obj [("Cube",
      .obj [("Cube", .arr (days.map mkHistDayJson))])])]

theorem parseCubeEntry_mk_of_mem (codes : List String) (e : String × String)
    (h : e.1 ∈ codes) :
    parseCubeEntry codes (mkCubeEntryJson e) = some (e.1, jsToNumber e.2) := by
  obtain ⟨c, r⟩ := e
  simp +decide [parseCubeEntry, mkCubeEntryJson, asObj, jLookup, asStr, parseEnumStr, h]

theorem parseCubeEntry_mk_of_notMem (codes : List String) (e : String × String)
    (h : e.1 ∉ codes) : parseCubeEntry codes (mkCubeEntryJson e) = none := by
  obtain ⟨c, r⟩ := e
  simp +decide [parseCubeEntry, mkCubeEntryJson, asObj, jLookup, asStr, parseEnumStr, h]

theorem parseAll_map_some {α β : Type} (f : Json → Option β) (g : α → Json)
    (h : α → β) (l : List α) (hall : ∀ x ∈ l, f (g x) = some (h x)) :
    parseAll f (l.map g) = some (l.map h) := by
  induction l with
  | nil => rfl
  | cons a rest ih =>
    simp only [List.map_cons, parseAll, hall a (by simp)]
    rw [ih (fun x hx => hall x (by simp [hx]))]

theorem parseAll_map_none {α β : Type} (f : Json → Option β) (g : α → Json)
    (l : List α) (x : α) (hx : x ∈ l) (hnone : f (g x) = none) :
    parseAll f (l.map g) = none := by
  induction l with
  | nil => exact absurd hx (List.not_mem_nil x)
  | cons a rest ih =>
    rcases List.mem_cons.mp hx with rfl | hx2
    · simp only [List.map_cons, parseAll, hnone]
    · cases hfa : f (g a) with
      | none => simp only [List.map_cons, parseAll, hfa]
      | some y => simp only [List.map_cons, parseAll, hfa, ih hx2]

/-- The daily parse of a well-shaped payload reduces to the date check
followed by the entry-array parse. -/
theorem parseEcbDaily_mk (time : String) (entries : List (String × String)) :
    parseEcbDaily (mkDailyJson time entries) =
      if isIsoDate time then
        match parseAll (parseCubeEntry ecbCurrencyCodes) (entries.map mkCubeEntryJson) with
        | none => none
        | some es => some ⟨time, es⟩
      else none := by
  simp +decide [parseEcbDaily, mkDailyJson, asObj, jLookup, asStr, asArr]

/-- The historical parse of a well-shaped payload reduces to the per-day
parses. -/
theorem parseEcbHistorical_mk (days : List (String × List (String × String))) :
    parseEcbHistorical (mkHistoricalJson days) =
      parseAll parseHistoricalDay (days.map mkHistDayJson) := by
  simp +decide [parseEcbHistorical, mkHistoricalJson, asObj, jLookup, asArr]

theorem parseHistoricalDay_mk (d : String × List (String × String)) :
    parseHistoricalDay (mkHistDayJson d) =
      match parseAll (parseCubeEntry ecbHistoricalCurrencyCodes) (d.2.map mkCubeEntryJson) with
      | none => none
      | some es => some (d.1, es) := by
  obtain ⟨t, entries⟩ := d
  simp +decide [parseHistoricalDay, mkHistDayJson, asObj, jLookup, asStr, asArr]

/-- C8 counterexample: a daily payload with the expected tree shape, a
valid currency code, and the rate text "abc", which is not convertible to
a positive number (`Number` gives NaN), is nevertheless parsed
successfully by the daily schema, the claim demanding a ParseError here. -/
theorem parser_accepts_nonnumeric_rate :
    parseEcbDaily (mkDailyJson "2024-06-04" [("USD", "abc")]) =
      some ⟨"2024-06-04", [("USD", none)]⟩ := by
  decide

/-- C8 amended: the feed schemas fail on a currency code outside the
relevant enumeration, on a malformed tree shape, and (daily feed) on a
malformed date, and a well-shaped payload with valid codes parses
successfully; but the rate text undergoes no numeric or positivity
validation: any string is accepted and numerically converted, possibly
to NaN. -/
theorem parser_validation_amended :
    (∀ (time : String) (entries : List (String × String)),
        isIsoDate time = true → (∀ e ∈ entries, e.1 ∈ ecbCurrencyCodes) →
          parseEcbDaily (mkDailyJson time entries) =
            some ⟨time, entries.map fun e => (e.1, jsToNumber e.2)⟩) ∧
      (∀ (time : String) (entries : List (String × String)) (e : String × String),
        e ∈ entries → e.1 ∉ ecbCurrencyCodes →
          parseEcbDaily (mkDailyJson time entries) = none) ∧
      (∀ (time : String) (entries : List (String × String)),
        isIsoDate time = false → parseEcbDaily (mkDailyJson time entries) = none) ∧
      (∀ s : String, parseEcbDaily (Json.str s) = none) ∧
      (∀ days : List (String × List (String × String)),
        (∀ d ∈ days, ∀ e ∈ d.2, e.1 ∈ ecbHistoricalCurrencyCodes) →
          parseEcbHistorical (mkHistoricalJson days) =
            some (days.map fun d => (d.1, d.2.map fun e => (e.1, jsToNumber e.2)))) ∧
      ∀ (days : List (String × List (String × String)))
        (d : String × List (String × String)) (e : String × String),
        d ∈ days → e ∈ d.2 → e.1 ∉ ecbHistoricalCurrencyCodes →
          parseEcbHistorical (mkHistoricalJson days) = none := by
  refine ⟨?_, ?_, ?_, ?_, ?_, ?_⟩
  · intro time entries hiso hmem
    rw [parseEcbDaily_mk, if_pos hiso,
      parseAll_map_some (parseCubeEntry ecbCurrencyCodes) mkCubeEntryJson
        (fun e => (e.1, jsToNumber e.2)) entries
        (fun e he => parseCubeEntry_mk_of_mem ecbCurrencyCodes e (hmem e he))]
  · intro time entries e he hbad
    rw [parseEcbDaily_mk]
    by_cases hiso : isIsoDate time
    · rw [if_pos hiso,
        parseAll_map_none (parseCubeEntry ecbCurrencyCodes) mkCubeEntryJson entries e he
          (parseCubeEntry_mk_of_notMem ecbCurrencyCodes e hbad)]
    · rw [if_neg hiso]
  · intro time entries hiso
    rw [parseEcbDaily_mk, if_neg (by simp [hiso])]
  · intro s
    rfl
  · intro days hall
    rw [parseEcbHistorical_mk,
      parseAll_map_some parseHistoricalDay mkHistDayJson
        (fun d => (d.1, d.2.map fun e => (e.1, jsToNumber e.2))) days
        (fun d hd => by
          rw [parseHistoricalDay_mk d,
            parseAll_map_some (parseCubeEntry ecbHistoricalCurrencyCodes) mkCubeEntryJson
              (fun e => (e.1, jsToNumber e.2)) d.2
              (fun e he => parseCubeEntry_mk_of_mem ecbHistoricalCurrencyCodes e
                (hall d hd e he))])]
  · intro days d e hd he hbad
    rw [parseEcbHistorical_mk,
      parseAll_map_none parseHistoricalDay mkHistDayJson days d hd
        (by
          rw [parseHistoricalDay_mk d,
            parseAll_map_none (parseCubeEntry ecbHistoricalCurrencyCodes) mkCubeEntryJson
              d.2 e he (parseCubeEntry_mk_of_notMem ecbHistoricalCurrencyCodes e hbad)])]

/-- C10: the shared amount query validator defaults to 1 when the
parameter is absent, accepts every string whose decimal conversion yields
a number, zero and negative values included, rejects exactly the strings
converting to NaN, and the accepted amount enters the rate arithmetic
with no positivity check, negatives and zero flowing through. -/
theorem amount_validation_no_positivity :
    validateAmount none = some 1 ∧
      (∀ (s : String) (p : Int × Nat), jsNumberRaw s = some p →
        validateAmount (some s) = some (decValue p)) ∧
      (∀ s : String, jsNumberRaw s = none → validateAmount (some s) = none) ∧
      validateAmount (some "0") = some 0 ∧
      validateAmount (some "-2.5") = some (-(5 / 2)) ∧
      (∀ (data : EcbRateData) (S T : String) (amount : ℚ),
        (pairwiseLatestHandler data S T (-amount)).rate =
          -(pairwiseLatestHandler data S T amount).rate) ∧
      ∀ (data : EcbRateData) (S T : String), (pairwiseLatestHandler data S T 0).rate = 0 := by
  refine ⟨rfl, ?_, ?_, ?_, ?_, ?_, ?_⟩
  · intro s p h
    simp [validateAmount, h]
  · intro s h
    simp [validateAmount, h]
  · have h : jsNumberRaw "0" = some (0, 0) := by decide
    simp [validateAmount, h]
    norm_num [decValue]
  · have h : jsNumberRaw "-2.5" = some (-25, 1) := by decide
    simp [validateAmount, h]
    norm_num [decValue]
  · intro data S T amount
    show withEur data.rates T / withEur data.rates S * -amount =
      -(withEur data.rates T / withEur data.rates S * amount)
    ring
  · intro data S T
    show withEur data.rates T / withEur data.rates S * 0 = 0
    ring
